import Mathlib

/-!
Verification of the go_template user-management service: a shallow embedding
of the entity/validation model (internal/models), the Mongo-backed user
repository (internal/repositories/user_repository.go), the password utility
(internal/shared/utils/password.go) and the cache-aside user service
(internal/modules/users/service.go), together with theorems settling the
frozen claims about the specification.

Modelling conventions:
- Go strings are Lean `String`; `len` (bytes) is `goLen` (UTF-8 byte size).
- `strings.TrimSpace` / `strings.ToLower` are modelled over the ASCII range,
  matching every character class the repository's validators use.
- The SHA-256 primitive (crypto/sha256, declared an external collaborator by
  the spec) is a parameter `sha256hex : String → String` of the credential
  functions; randomness (salt, ObjectID generation) and clock reads
  (`time.Now`) are explicit parameters.
- The Mongo store is a `List User`; soft-deleted rows carry `deletedAt ≠ none`
  (presence of the field is the tombstone marker, as in the bson queries).
- The Redis cache is a key/value map with per-key failure oracles for get,
  set and delete, so that the best-effort cache policy can be stated.
-/

namespace GoTemplate

/-- Go `len` on a string: number of UTF-8 bytes. -/
def goLen (s : String) : Nat := s.utf8ByteSize

/-- ASCII uppercase letter, the `[A-Z]` class used by the validators. -/
def isUpperA (c : Char) : Bool := 65 ≤ c.toNat && c.toNat ≤ 90

/-- ASCII lowercase letter, the `[a-z]` class used by the validators. -/
def isLowerA (c : Char) : Bool := 97 ≤ c.toNat && c.toNat ≤ 122

/-- ASCII digit, the `[0-9]` / RE2 `\d` class used by the validators. -/
def isDigitA (c : Char) : Bool := 48 ≤ c.toNat && c.toNat ≤ 57

/-- ASCII letter. -/
def isAlphaA (c : Char) : Bool := isUpperA c || isLowerA c

/-- ASCII alphanumeric. -/
def isAlnumA (c : Char) : Bool := isAlphaA c || isDigitA c

/-- Whitespace trimmed by `strings.TrimSpace` (ASCII range). -/
def isSpaceGo (c : Char) : Bool :=
  c == ' ' || c == '\t' || c == '\n' || c == Char.ofNat 11 || c == Char.ofNat 12 || c == '\r'

/-- `strings.TrimSpace`: drop leading and trailing whitespace. -/
def trimSpace (s : String) : String :=
  ⟨((s.data.dropWhile isSpaceGo).reverse.dropWhile isSpaceGo).reverse⟩

/-- `strings.ToLower` on the ASCII range. -/
def toLowerGo (s : String) : String :=
  ⟨s.data.map (fun c => if isUpperA c then Char.ofNat (c.toNat + 32) else c)⟩

/-- Does `hay` start with `needle`? -/
def listStartsWith : List Char → List Char → Bool
  | _, [] => true
  | [], _ :: _ => false
  | a :: as, b :: bs => a == b && listStartsWith as bs

/-- Does `hay` contain `needle` as a contiguous run (an unanchored
regex/substring match)? -/
def strContains (needle : List Char) : List Char → Bool
  | [] => listStartsWith [] needle
  | c :: t => listStartsWith (c :: t) needle || strContains needle t

/-- Character allowed in a username: the regex `^[a-zA-Z0-9_]+$` classes. -/
def isUsernameChar (c : Char) : Bool := isAlnumA c || c == '_'

/-- `ValidateUsername` (models/user.go): trims, then checks 3–30 bytes and the
anchored regex `^[a-zA-Z0-9_]+$`. Returns the error message, or `none`. -/
def ValidateUsername (username : String) : Option String :=
  let username := trimSpace username
  if goLen username < 3 then
    some "username must be at least 3 characters long"
  else if goLen username > 30 then
    some "username cannot exceed 30 characters"
  else if !(!username.data.isEmpty && username.data.all isUsernameChar) then
    some "username can only contain letters, numbers, and underscores"
  else
    none

/-- Local-part character class `[a-zA-Z0-9._%+-]` of the email regex. -/
def isLocalChar (c : Char) : Bool :=
  isAlnumA c || c == '.' || c == '_' || c == '%' || c == '+' || c == '-'

/-- Domain character class `[a-zA-Z0-9.-]` of the email regex. -/
def isDomainChar (c : Char) : Bool := isAlnumA c || c == '.' || c == '-'

/-- Matches `[a-zA-Z0-9.-]+\.[a-zA-Z]{2,}` against a whole character list:
split at the last dot; before it a non-empty run of domain characters, after
it at least two ASCII letters. (The trailing letter block may not contain a
dot, so the split dot is necessarily the last one.) -/
def domainMatch (d : List Char) : Bool :=
  match d.reverse.span (fun c => c != '.') with
  | (_, []) => false
  | (tldRev, _ :: bRev) =>
    !bRev.isEmpty && bRev.all isDomainChar && tldRev.all isAlphaA &&
      decide (2 ≤ tldRev.length)

/-- The anchored email regex `^[a-zA-Z0-9._%+-]+@[a-zA-Z0-9.-]+\.[a-zA-Z]{2,}$`
of `ValidateEmail`. Neither side class contains `@`, so a match has exactly
one `@`. -/
def emailMatch (email : String) : Bool :=
  match email.data.splitOn '@' with
  | [localPart, domainPart] =>
    !localPart.isEmpty && localPart.all isLocalChar && domainMatch domainPart
  | _ => false

/-- `ValidateEmail` (models/user.go): trims, requires non-empty, the email
regex, and at most 255 bytes — in source order (regex before length). -/
def ValidateEmail (email : String) : Option String :=
  let email := trimSpace email
  if email = "" then
    some "email is required"
  else if !emailMatch email then
    some "invalid email format"
  else if goLen email > 255 then
    some "email cannot exceed 255 characters"
  else
    none

/-- `ValidatePassword` (models/user.go): 8–128 bytes and at least one
uppercase letter, one lowercase letter and one digit. -/
def ValidatePassword (password : String) : Option String :=
  if goLen password < 8 then
    some "password must be at least 8 characters long"
  else if goLen password > 128 then
    some "password cannot exceed 128 characters"
  else if !(password.data.any isUpperA && password.data.any isLowerA &&
            password.data.any isDigitA) then
    some "password must contain at least one uppercase letter, one lowercase letter, and one digit"
  else
    none

/-- `PasswordService.ValidatePassword` (shared/utils/password.go), the policy
the credential hashing helper (`HashPassword`) enforces: 8–128 bytes and at
least one uppercase letter, one lowercase letter and one digit. -/
def PasswordService.ValidatePassword (password : String) : Option String :=
  if goLen password < 8 then
    some "password must be at least 8 characters long"
  else if goLen password > 128 then
    some "password cannot exceed 128 characters"
  else if !(password.data.any isUpperA && password.data.any isLowerA &&
            password.data.any isDigitA) then
    some "password must contain at least one uppercase letter, one lowercase letter, and one digit"
  else
    none

/-- `isValidURL` (models/user.go): the anchored regex
`^https?://[a-zA-Z0-9.-]+\.[a-zA-Z]{2,}(/.*)?$`; `.` does not match a
newline in RE2. -/
def isValidURL (url : String) : Bool :=
  let cs := url.data
  let rest : Option (List Char) :=
    if listStartsWith cs "https://".data then some (cs.drop 8)
    else if listStartsWith cs "http://".data then some (cs.drop 7)
    else none
  match rest with
  | none => false
  | some r =>
    match r.span (fun c => c != '/') with
    | (host, []) => domainMatch host
    | (host, _ :: tail) => domainMatch host && tail.all (fun c => c != '\n')

/-- `hashPassword` (models/user.go): hex SHA-256 of `password ++ salt`. The
SHA-256 primitive itself is external (crypto/sha256), passed as `sha256hex`. -/
def hashPassword (sha256hex : String → String) (password salt : String) : String :=
  sha256hex (password ++ salt)

/-- The `User` entity (models/user.go with the inlined `BaseModel`).
Timestamps are abstract clock readings (`Nat`); `deletedAt` present marks the
soft-delete tombstone; `id` holds the ObjectID hex string. -/
structure User where
  id : String
  createdAt : Nat
  updatedAt : Nat
  deletedAt : Option Nat := none
  username : String
  email : String
  firstName : String := ""
  lastName : String := ""
  password : String
  salt : String
  avatar : String := ""
  bio : String := ""
  location : String := ""
  website : String := ""
  dateOfBirth : Option Nat := none
  isActive : Bool
  isVerified : Bool
  roles : List String
  lastLoginAt : Option Nat := none
  emailVerifiedAt : Option Nat := none
  loginCount : Nat := 0
  failedLogins : Nat := 0
  lastFailedAt : Option Nat := none
deriving DecidableEq, Repr

/-- `NewUser` (models/user.go): validates username, email and password in
order, then builds the entity with lowercased trimmed identity fields, the
salted hash, the default role and fresh timestamps. `newId` and `salt` stand
for the externally generated ObjectID and random salt. -/
def NewUser (sha256hex : String → String) (newId salt : String) (now : Nat)
    (username email password : String) : Except String User :=
  match ValidateUsername username, ValidateEmail email, ValidatePassword password with
  | some e, _, _ => .error e
  | none, some e, _ => .error e
  | none, none, some e => .error e
  | none, none, none =>
    .ok { id := newId,
          createdAt := now,
          updatedAt := now,
          username := toLowerGo (trimSpace username),
          email := toLowerGo (trimSpace email),
          password := hashPassword sha256hex password salt,
          salt := salt,
          isActive := true,
          isVerified := false,
          roles := ["user"],
          loginCount := 0,
          failedLogins := 0 }

/-- `User.CheckPassword` (models/user.go): re-hash the candidate with the
stored salt and compare to the stored hash. -/
def User.CheckPassword (sha256hex : String → String) (u : User)
    (password : String) : Bool :=
  u.password == hashPassword sha256hex password u.salt

/-- The sparse field set handed to `UserRepository.Update` as a
`map[string]interface{}` (`$set` document). A `some` field is set verbatim;
repository helpers (`MarkAsVerified`, `SoftDelete`) reuse the same map. -/
structure UpdateMap where
  username : Option String := none
  email : Option String := none
  first_name : Option String := none
  last_name : Option String := none
  bio : Option String := none
  location : Option String := none
  website : Option String := none
  password : Option String := none
  salt : Option String := none
  is_verified : Option Bool := none
  email_verified_at : Option Nat := none
  deleted_at : Option Nat := none
  is_active : Option Bool := none
deriving DecidableEq, Repr

/-- `User.UpdateUser` (models/user.go): stamps `updatedAt`, then applies the
allowed fields in source order, validating each and failing on the first
violation. A changed email clears the verified flag and its timestamp. -/
def User.UpdateUser (u0 : User) (updates : UpdateMap) (now : Nat) :
    Except String User := do
  let u1 := { u0 with updatedAt := now }
  let u2 ←
    match updates.username with
    | none => Except.ok u1
    | some username =>
      match ValidateUsername username with
      | some e => Except.error e
      | none => Except.ok { u1 with username := toLowerGo (trimSpace username) }
  let u3 ←
    match updates.email with
    | none => Except.ok u2
    | some email =>
      match ValidateEmail email with
      | some e => Except.error e
      | none =>
        if u2.email ≠ toLowerGo (trimSpace email) then
          Except.ok { u2 with isVerified := false, emailVerifiedAt := none,
                              email := toLowerGo (trimSpace email) }
        else
          Except.ok { u2 with email := toLowerGo (trimSpace email) }
  let u4 :=
    match updates.first_name with
    | none => u3
    | some fn => { u3 with firstName := trimSpace fn }
  let u5 :=
    match updates.last_name with
    | none => u4
    | some ln => { u4 with lastName := trimSpace ln }
  let u6 ←
    match updates.bio with
    | none => Except.ok u5
    | some bio =>
      if goLen bio > 500 then Except.error "bio cannot exceed 500 characters"
      else Except.ok { u5 with bio := trimSpace bio }
  let u7 :=
    match updates.location with
    | none => u6
    | some loc => { u6 with location := trimSpace loc }
  let u8 ←
    match updates.website with
    | none => Except.ok u7
    | some website =>
      if website ≠ "" && !isValidURL website then
        Except.error "invalid website URL format"
      else Except.ok { u7 with website := trimSpace website }
  Except.ok u8

/-- `CreateUserRequest` (models/dto.go). -/
structure CreateUserRequest where
  username : String
  email : String
  password : String
  firstName : String := ""
  lastName : String := ""
deriving DecidableEq, Repr

/-- `CreateUserRequest.Validate` (models/dto.go): trims the identity and name
fields in place, then accumulates the errors of every field. Returns the
error list together with the trimmed request (the Go method mutates the
request). -/
def CreateUserRequest.Validate (r0 : CreateUserRequest) :
    List String × CreateUserRequest :=
  let r := { r0 with
    username := trimSpace r0.username,
    email := trimSpace r0.email,
    firstName := trimSpace r0.firstName,
    lastName := trimSpace r0.lastName }
  let errs :=
    (match ValidateUsername r.username with | some e => [e] | none => []) ++
    (match ValidateEmail r.email with | some e => [e] | none => []) ++
    (match ValidatePassword r.password with | some e => [e] | none => []) ++
    (if r.firstName ≠ "" && goLen r.firstName > 50 then
       ["first name cannot exceed 50 characters"] else []) ++
    (if r.lastName ≠ "" && goLen r.lastName > 50 then
       ["last name cannot exceed 50 characters"] else [])
  (errs, r)

/-- `UpdateUserRequest` (models/dto.go): a sparse set of named fields. -/
structure UpdateUserRequest where
  username : Option String := none
  email : Option String := none
  firstName : Option String := none
  lastName : Option String := none
  bio : Option String := none
  location : Option String := none
  website : Option String := none
deriving DecidableEq, Repr

/-- `UpdateUserRequest.Validate` (models/dto.go): trims each present field in
place and accumulates its validation errors. -/
def UpdateUserRequest.Validate (r0 : UpdateUserRequest) :
    List String × UpdateUserRequest :=
  let r : UpdateUserRequest := {
    username := r0.username.map trimSpace,
    email := r0.email.map trimSpace,
    firstName := r0.firstName.map trimSpace,
    lastName := r0.lastName.map trimSpace,
    bio := r0.bio.map trimSpace,
    location := r0.location.map trimSpace,
    website := r0.website.map trimSpace }
  let errs :=
    (match r.username with
     | some v => (match ValidateUsername v with | some e => [e] | none => [])
     | none => []) ++
    (match r.email with
     | some v => (match ValidateEmail v with | some e => [e] | none => [])
     | none => []) ++
    (match r.firstName with
     | some v => if goLen v > 50 then ["first name cannot exceed 50 characters"] else []
     | none => []) ++
    (match r.lastName with
     | some v => if goLen v > 50 then ["last name cannot exceed 50 characters"] else []
     | none => []) ++
    (match r.bio with
     | some v => if goLen v > 500 then ["bio cannot exceed 500 characters"] else []
     | none => []) ++
    (match r.location with
     | some v => if goLen v > 100 then ["location cannot exceed 100 characters"] else []
     | none => []) ++
    (match r.website with
     | some v => if v ≠ "" && !isValidURL v then ["invalid website URL format"] else []
     | none => [])
  (errs, r)

/-- `UpdateUserRequest.ToMap` (models/dto.go): each present field is trimmed
and placed under its bson name; absent fields are omitted. -/
def UpdateUserRequest.ToMap (r : UpdateUserRequest) : UpdateMap :=
  { username := r.username.map trimSpace,
    email := r.email.map trimSpace,
    first_name := r.firstName.map trimSpace,
    last_name := r.lastName.map trimSpace,
    bio := r.bio.map trimSpace,
    location := r.location.map trimSpace,
    website := r.website.map trimSpace }

/-- `UsersQueryParams` (models/dto.go). `page` and `limit` are Go ints. -/
structure UsersQueryParams where
  page : Int
  limit : Int
  search : String := ""
  role : String := ""
  isActive : Option Bool := none
  sortBy : String := ""
  sortDir : String := ""
deriving DecidableEq, Repr

/-- `UsersQueryParams.SetDefaults` (models/dto.go): page below 1 becomes 1,
limit outside [1,100] becomes 20, empty sort fields get their defaults. -/
def UsersQueryParams.SetDefaults (q0 : UsersQueryParams) : UsersQueryParams :=
  let q1 := if q0.page < 1 then { q0 with page := 1 } else q0
  let q2 := if q1.limit < 1 || q1.limit > 100 then { q1 with limit := 20 } else q1
  let q3 := if q2.sortBy = "" then { q2 with sortBy := "created_at" } else q2
  if q3.sortDir = "" then { q3 with sortDir := "desc" } else q3

/-- `primitive.ObjectIDFromHex` succeeds exactly on 24 hexadecimal
characters. -/
def isValidObjectId (id : String) : Bool :=
  id.length == 24 && id.data.all (fun c =>
    isDigitA c || (97 ≤ c.toNat && c.toNat ≤ 102) || (65 ≤ c.toNat && c.toNat ≤ 70))

/-- The bson filter `{_id: id, deleted_at: {$exists: false}}`. -/
def liveWithId (id : String) (u : User) : Bool :=
  u.id == id && u.deletedAt == none

/-- `UserRepository.GetByID`: rejects a malformed id, then finds the
non-tombstoned row, signalling `user not found` otherwise. -/
def UserRepository.GetByID (store : List User) (id : String) :
    Except String User :=
  if !isValidObjectId id then .error "invalid user ID format"
  else
    match store.find? (liveWithId id) with
    | some u => .ok u
    | none => .error "user not found"

/-- `UserRepository.GetByUsername`: non-tombstoned row with that username. -/
def UserRepository.GetByUsername (store : List User) (username : String) :
    Except String User :=
  match store.find? (fun u => u.username == username && u.deletedAt == none) with
  | some u => .ok u
  | none => .error "user not found"

/-- `UserRepository.GetByEmail`: non-tombstoned row with that email. -/
def UserRepository.GetByEmail (store : List User) (email : String) :
    Except String User :=
  match store.find? (fun u => u.email == email && u.deletedAt == none) with
  | some u => .ok u
  | none => .error "user not found"

/-- `UserRepository.ExistsByUsername`: a non-tombstoned row matches. -/
def UserRepository.ExistsByUsername (store : List User) (username : String) : Bool :=
  store.any (fun u => u.username == username && u.deletedAt == none)

/-- `UserRepository.ExistsByEmail`: a non-tombstoned row matches. -/
def UserRepository.ExistsByEmail (store : List User) (email : String) : Bool :=
  store.any (fun u => u.email == email && u.deletedAt == none)

/-- `UserRepository.Create`: friendly duplicate pre-checks on username and
email among non-tombstoned rows, then insert. -/
def UserRepository.Create (store : List User) (u : User) :
    Except String (List User) :=
  if UserRepository.ExistsByUsername store u.username then
    .error "username already exists"
  else if UserRepository.ExistsByEmail store u.email then
    .error "email already exists"
  else
    .ok (store ++ [u])

/-- Mongo `$set` semantics of the update document built by the repository:
each present field is written verbatim — no validation, no lowercasing and no
derived-invariant maintenance — and `updated_at` is stamped. -/
def applyUpdateMap (u : User) (m : UpdateMap) (now : Nat) : User :=
  { u with
    username := m.username.getD u.username,
    email := m.email.getD u.email,
    firstName := m.first_name.getD u.firstName,
    lastName := m.last_name.getD u.lastName,
    bio := m.bio.getD u.bio,
    location := m.location.getD u.location,
    website := m.website.getD u.website,
    password := m.password.getD u.password,
    salt := m.salt.getD u.salt,
    isVerified := m.is_verified.getD u.isVerified,
    emailVerifiedAt := match m.email_verified_at with
                       | some t => some t
                       | none => u.emailVerifiedAt,
    deletedAt := match m.deleted_at with
                 | some t => some t
                 | none => u.deletedAt,
    isActive := m.is_active.getD u.isActive,
    updatedAt := now }

/-- `UserRepository.Update`: validates the id, stamps `updated_at`, and
`$set`s the given fields on the matching non-tombstoned row; `user not found`
when no row matches. -/
def UserRepository.Update (store : List User) (id : String) (m : UpdateMap)
    (now : Nat) : Except String (List User) :=
  if !isValidObjectId id then .error "invalid user ID format"
  else if store.any (liveWithId id) then
    .ok (store.map (fun u => if liveWithId id u then applyUpdateMap u m now else u))
  else .error "user not found"

/-- `UserRepository.SoftDelete`: sets the tombstone timestamp and
deactivates, via `Update`. -/
def UserRepository.SoftDelete (store : List User) (id : String) (now : Nat) :
    Except String (List User) :=
  UserRepository.Update store id { deleted_at := some now, is_active := some false } now

/-- `UserRepository.MarkAsVerified`: sets the verified flag and its
timestamp, via `Update`. -/
def UserRepository.MarkAsVerified (store : List User) (id : String) (now : Nat) :
    Except String (List User) :=
  UserRepository.Update store id
    { is_verified := some true, email_verified_at := some now } now

/-- One disjunct of the `$or` search filter: case-insensitive unanchored
match of the query against a field. -/
def fieldHas (q : String) (field : String) : Bool :=
  strContains (toLowerGo q).data (toLowerGo field).data

/-- The `GetAll` search clause across username, email, first and last name. -/
def matchesSearch (q : String) (u : User) : Bool :=
  fieldHas q u.username || fieldHas q u.email || fieldHas q u.firstName ||
    fieldHas q u.lastName

/-- The complete `GetAll` bson filter: non-tombstoned, plus the optional
search, role-membership and active-status clauses. -/
def queryFilter (params : UsersQueryParams) (u : User) : Bool :=
  u.deletedAt == none &&
  (params.search == "" || matchesSearch params.search u) &&
  (params.role == "" || u.roles.contains params.role) &&
  (match params.isActive with | none => true | some b => u.isActive == b)

/-- Per-field comparison for the `GetAll` sort stage; fields the embedding
does not order by compare equal. -/
def fieldLe (sortBy : String) (u v : User) : Bool :=
  match sortBy with
  | "created_at" => decide (u.createdAt ≤ v.createdAt)
  | "updated_at" => decide (u.updatedAt ≤ v.updatedAt)
  | "login_count" => decide (u.loginCount ≤ v.loginCount)
  | _ => true

/-- The sort direction handling of `GetAll`: `desc` flips the comparison. -/
def userCmpLe (params : UsersQueryParams) (u v : User) : Bool :=
  if params.sortDir == "desc" then fieldLe params.sortBy v u
  else fieldLe params.sortBy u v

/-- Insertion step of the sort stage. -/
def insertSorted (le : User → User → Bool) (u : User) : List User → List User
  | [] => [u]
  | v :: t => if le u v then u :: v :: t else v :: insertSorted le u t

/-- The sort stage of `GetAll` (Mongo leaves ties unspecified; this embedding
uses a stable insertion sort). -/
def sortUsers (le : User → User → Bool) : List User → List User
  | [] => []
  | u :: t => insertSorted le u (sortUsers le t)

/-- Filter-then-sort part of the `GetAll` cursor, before skip/limit. -/
def UserRepository.queryPipeline (store : List User)
    (params : UsersQueryParams) : List User :=
  sortUsers (userCmpLe params) (store.filter (queryFilter params))

/-- Wrap-around of Go's 64-bit machine-int arithmetic: reduce into
[-2^63, 2^63). -/
def int64wrap (x : Int) : Int := (x + 2 ^ 63) % 2 ^ 64 - 2 ^ 63

/-- `UserRepository.GetAll`: applies `SetDefaults`, counts the filtered
rows, and pages the sorted cursor with `skip = (page-1)*limit` and the
limit. The skip product is computed in Go machine-int arithmetic
(`int64((params.Page - 1) * params.Limit)`), so each operation wraps;
Mongo rejects a negative skip, which is the failure the guard models. -/
def UserRepository.GetAll (store : List User) (params0 : UsersQueryParams) :
    Except String (List User × Int) :=
  let params := params0.SetDefaults
  let total : Int := (store.filter (queryFilter params)).length
  let skip : Int := int64wrap (int64wrap (params.page - 1) * params.limit)
  if skip < 0 then .error "failed to find users: negative skip"
  else
    .ok (((UserRepository.queryPipeline store params).drop skip.toNat).take
           params.limit.toNat, total)

/-- `UserListResponse` (models/dto.go) as the service caches it: the users
are already in response shape (see `User.toResponseUser`). -/
structure UserListResponse where
  users : List User
  total : Int
  page : Int
  limit : Int
deriving DecidableEq, Repr

/-- The JSON round trip `User → UserResponse → User` the list cache performs:
json-hidden credentials and failure counters (`json:"-"`) and the
response-absent tombstone are lost; everything else survives. -/
def User.toResponseUser (u : User) : User :=
  { u with password := "", salt := "", failedLogins := 0, lastFailedAt := none,
           deletedAt := none }

/-- A deserialized cache value: the entity JSON, an existence flag string,
a serialized list page, or the stats blob (opaque here). -/
inductive CVal where
  | user (u : User)
  | flag (b : Bool)
  | list (l : UserListResponse)
  | stats
deriving DecidableEq, Repr

/-- The cache gateway: a key/value map plus per-key failure oracles for the
three operations, so the best-effort policy is statable. A failed or missing
`get` is `none` (callers treat redis.Nil and transport errors alike); a
failed `set`/`delete` leaves the map unchanged (the service only logs it). -/
structure CacheEnv where
  data : String → Option CVal
  getFail : String → Bool
  setFail : String → Bool
  delFail : String → Bool

/-- Cache `Get`. -/
def cacheGet (env : CacheEnv) (key : String) : Option CVal :=
  if env.getFail key then none else env.data key

/-- Cache `Set` (expiration is outside the model). -/
def cacheSet (env : CacheEnv) (key : String) (v : CVal) : CacheEnv :=
  if env.setFail key then env
  else { env with data := fun k => if k = key then some v else env.data k }

/-- Cache `Delete`. -/
def cacheDel (env : CacheEnv) (key : String) : CacheEnv :=
  if env.delFail key then env
  else { env with data := fun k => if k = key then none else env.data k }

/-- Cache key `user:id:%s`. -/
def CacheKeyUser (id : String) : String := "user:id:" ++ id

/-- Cache key `user:email:%s`. -/
def CacheKeyUserByEmail (email : String) : String := "user:email:" ++ email

/-- Cache key `user:username:%s`. -/
def CacheKeyUserUsername (username : String) : String := "user:username:" ++ username

/-- Cache key `user:stats`. -/
def CacheKeyUserStats : String := "user:stats"

/-- Cache key `user:list:%s` over the query-parameter hash. -/
def CacheKeyUserList (h : String) : String := "user:list:" ++ h

/-- Cache key `user:exists:%s:%s` (field, value). -/
def CacheKeyUserExists (field value : String) : String :=
  "user:exists:" ++ field ++ ":" ++ value

/-- The service state: the Mongo store and the Redis cache. -/
structure SState where
  store : List User
  cache : CacheEnv

/-- `UserService.getUserFromCache`: get plus deserialize; any miss, transport
error or deserialization failure is `none`. -/
def UserService.getUserFromCache (env : CacheEnv) (key : String) : Option User :=
  match cacheGet env key with
  | some (.user u) => some u
  | _ => none

/-- `UserService.cacheUser`: write the entity under the id, email and
username namespace keys, each write best-effort. -/
def UserService.cacheUser (env : CacheEnv) (u : User) : CacheEnv :=
  cacheSet (cacheSet (cacheSet env
    (CacheKeyUser u.id) (.user u))
    (CacheKeyUserByEmail u.email) (.user u))
    (CacheKeyUserUsername u.username) (.user u)

/-- `UserService.invalidateUserCaches`: best-effort delete of the three
entity namespace keys and the two existence keys of the given snapshot. -/
def UserService.invalidateUserCaches (env : CacheEnv) (u : User) : CacheEnv :=
  cacheDel (cacheDel (cacheDel (cacheDel (cacheDel env
    (CacheKeyUser u.id))
    (CacheKeyUserByEmail u.email))
    (CacheKeyUserUsername u.username))
    (CacheKeyUserExists "email" u.email))
    (CacheKeyUserExists "username" u.username)

/-- `UserService.invalidateUserListCaches` (service.go): the body only logs
the pattern `user:list:*` — it deletes nothing. The embedding is therefore
the identity. -/
def UserService.invalidateUserListCaches (env : CacheEnv) : CacheEnv := env

/-- `UserService.invalidateUserStats`: best-effort delete of `user:stats`. -/
def UserService.invalidateUserStats (env : CacheEnv) : CacheEnv :=
  cacheDel env CacheKeyUserStats

/-- `UserService.checkUserExists`: consult the existence cache; on miss fall
through to the repository by field, then cache the flag best-effort. A cached
value compares against the string `"true"`. -/
def UserService.checkUserExists (store : List User) (env : CacheEnv)
    (field value : String) : Except String Bool × CacheEnv :=
  let key := CacheKeyUserExists field value
  match cacheGet env key with
  | some v => (.ok (v == .flag true), env)
  | none =>
    match field with
    | "email" =>
      let ex := UserRepository.ExistsByEmail store value
      (.ok ex, cacheSet env key (.flag ex))
    | "username" =>
      let ex := UserRepository.ExistsByUsername store value
      (.ok ex, cacheSet env key (.flag ex))
    | _ => (.error ("unsupported field: " ++ field), env)

/-- `UserService.GetUserByID`: cache-aside read by id — hit returns the
cached entity without touching the store; miss falls through to the
repository and populates all three namespace keys. -/
def UserService.GetUserByID (st : SState) (id : String) :
    Except String User × SState :=
  match UserService.getUserFromCache st.cache (CacheKeyUser id) with
  | some u => (.ok u, st)
  | none =>
    match UserRepository.GetByID st.store id with
    | .error e => (.error e, st)
    | .ok u => (.ok u, { st with cache := UserService.cacheUser st.cache u })

/-- `UserService.GetUserByEmail`: cache-aside read by email. -/
def UserService.GetUserByEmail (st : SState) (email : String) :
    Except String User × SState :=
  match UserService.getUserFromCache st.cache (CacheKeyUserByEmail email) with
  | some u => (.ok u, st)
  | none =>
    match UserRepository.GetByEmail st.store email with
    | .error e => (.error e, st)
    | .ok u => (.ok u, { st with cache := UserService.cacheUser st.cache u })

/-- `UserService.GetUserByUsername`: cache-aside read by username. -/
def UserService.GetUserByUsername (st : SState) (username : String) :
    Except String User × SState :=
  match UserService.getUserFromCache st.cache (CacheKeyUserUsername username) with
  | some u => (.ok u, st)
  | none =>
    match UserRepository.GetByUsername st.store username with
    | .error e => (.error e, st)
    | .ok u => (.ok u, { st with cache := UserService.cacheUser st.cache u })

/-- `UserService.CreateUser`: validate, run both cached existence pre-checks,
build the entity (`NewUser` plus the optional names), persist, then populate
the entity cache, run the (no-op) list invalidation and delete the stats
key. Cache writes made before a failing step persist, as in Redis. -/
def UserService.CreateUser (sha256hex : String → String) (newId salt : String)
    (now : Nat) (st : SState) (req0 : CreateUserRequest) :
    Except String User × SState :=
  let vr := req0.Validate
  if vr.1 ≠ [] then
    (.error ("validation failed: " ++ String.intercalate ", " vr.1), st)
  else
    let req := vr.2
    match UserService.checkUserExists st.store st.cache "username" req.username with
    | (.error e, env1) =>
      (.error ("failed to validate username: " ++ e), { st with cache := env1 })
    | (.ok true, env1) =>
      (.error ("username '" ++ req.username ++ "' already exists"),
       { st with cache := env1 })
    | (.ok false, env1) =>
      match UserService.checkUserExists st.store env1 "email" req.email with
      | (.error e, env2) =>
        (.error ("failed to validate email: " ++ e), { st with cache := env2 })
      | (.ok true, env2) =>
        (.error ("email '" ++ req.email ++ "' already exists"),
         { st with cache := env2 })
      | (.ok false, env2) =>
        match NewUser sha256hex newId salt now req.username req.email req.password with
        | .error e =>
          (.error ("failed to create user: " ++ e), { st with cache := env2 })
        | .ok user0 =>
          let user := { user0 with firstName := req.firstName,
                                   lastName := req.lastName }
          match UserRepository.Create st.store user with
          | .error e =>
            (.error ("failed to save user: " ++ e), { st with cache := env2 })
          | .ok store2 =>
            let env3 := UserService.cacheUser env2 user
            let env4 := UserService.invalidateUserListCaches env3
            let env5 := UserService.invalidateUserStats env4
            (.ok user, { store := store2, cache := env5 })

/-- The uniqueness pre-check block of `UserService.UpdateUser` for one field:
skipped when the field is absent or unchanged; otherwise the cached existence
check, with the same wrapped error strings as the source. -/
def UserService.uniqCheck (store : List User) (env : CacheEnv) (field : String)
    (candidate : Option String) (current : String) :
    Except String Unit × CacheEnv :=
  match candidate with
  | none => (.ok (), env)
  | some nv =>
    if nv ≠ current then
      match UserService.checkUserExists store env field nv with
      | (.error e, env2) => (.error ("failed to validate " ++ field ++ ": " ++ e), env2)
      | (.ok true, env2) => (.error (field ++ " '" ++ nv ++ "' already exists"), env2)
      | (.ok false, env2) => (.ok (), env2)
    else (.ok (), env)

/-- `UserService.UpdateUser`: validate, snapshot the current entity through
the cache-aside read, pre-check changed username/email uniqueness, `$set`
the sparse fields in the store, delete the cache keys derived from the
pre-mutation snapshot, re-read the stored entity and re-populate the cache
with it. -/
def UserService.UpdateUser (st : SState) (id : String)
    (req0 : UpdateUserRequest) (now : Nat) : Except String User × SState :=
  let vr := req0.Validate
  if vr.1 ≠ [] then
    (.error ("validation failed: " ++ String.intercalate ", " vr.1), st)
  else
    match UserService.GetUserByID st id with
    | (.error e, st1) => (.error e, st1)
    | (.ok user, st1) =>
      let updates := vr.2.ToMap
      match UserService.uniqCheck st1.store st1.cache "username"
          updates.username user.username with
      | (.error e, env2) => (.error e, { st1 with cache := env2 })
      | (.ok _, env2) =>
        match UserService.uniqCheck st1.store env2 "email"
            updates.email user.email with
        | (.error e, env3) => (.error e, { st1 with cache := env3 })
        | (.ok _, env3) =>
          match UserRepository.Update st1.store id updates now with
          | .error e =>
            (.error ("failed to update user: " ++ e), { st1 with cache := env3 })
          | .ok store2 =>
            let env4 := UserService.invalidateUserCaches env3 user
            let env5 := UserService.invalidateUserListCaches env4
            match UserRepository.GetByID store2 id with
            | .error e =>
              (.error ("failed to retrieve updated user: " ++ e),
               { store := store2, cache := env5 })
            | .ok updatedUser =>
              (.ok updatedUser,
               { store := store2, cache := UserService.cacheUser env5 updatedUser })

/-- `UserService.DeleteUser`: snapshot, soft-delete in the store, then delete
the snapshot's cache keys, the (no-op) list invalidation and the stats key. -/
def UserService.DeleteUser (st : SState) (id : String) (now : Nat) :
    Except String Unit × SState :=
  match UserService.GetUserByID st id with
  | (.error e, st1) => (.error e, st1)
  | (.ok user, st1) =>
    match UserRepository.SoftDelete st1.store id now with
    | .error e => (.error ("failed to delete user: " ++ e), st1)
    | .ok store2 =>
      let env := UserService.invalidateUserStats
        (UserService.invalidateUserListCaches
          (UserService.invalidateUserCaches st1.cache user))
      (.ok (), { store := store2, cache := env })

/-- `UserService.VerifyUser`: snapshot; reject when already verified; mark
verified in the store; delete the snapshot's cache keys and the stats key
(the list caches are not touched on this path in the source). -/
def UserService.VerifyUser (st : SState) (id : String) (now : Nat) :
    Except String Unit × SState :=
  match UserService.GetUserByID st id with
  | (.error e, st1) => (.error e, st1)
  | (.ok user, st1) =>
    if user.isVerified then (.error "user is already verified", st1)
    else
      match UserRepository.MarkAsVerified st1.store id now with
      | .error e => (.error ("failed to verify user: " ++ e), st1)
      | .ok store2 =>
        let env := UserService.invalidateUserStats
          (UserService.invalidateUserCaches st1.cache user)
        (.ok (), { store := store2, cache := env })

/-- `UserService.isCacheableQuery`: only unfiltered, unsearched queries. -/
def UserService.isCacheableQuery (params : UsersQueryParams) : Bool :=
  params.search == "" && params.role == "" && params.isActive.isNone

/-- `UserService.buildUserListCacheKey`. -/
def UserService.buildUserListCacheKey (params : UsersQueryParams) : String :=
  CacheKeyUserList ("page:" ++ toString params.page ++ ":limit:" ++
    toString params.limit ++ ":sort:" ++ params.sortBy ++ ":" ++ params.sortDir)

/-- `UserService.getUserListFromCache`. -/
def UserService.getUserListFromCache (env : CacheEnv) (key : String) :
    Option UserListResponse :=
  match cacheGet env key with
  | some (.list l) => some l
  | _ => none

/-- `UserService.cacheUserList`: best-effort write of a list page. -/
def UserService.cacheUserList (env : CacheEnv) (key : String)
    (l : UserListResponse) : CacheEnv :=
  cacheSet env key (.list l)

/-- `UserService.GetUsers`: normalize the parameters; for cacheable queries
try the list cache (a hit is served from it, with the users in
response-round-trip shape); otherwise run `GetAll` and, if cacheable, cache
the response page. -/
def UserService.GetUsers (st : SState) (params0 : UsersQueryParams) :
    Except String (List User × Int) × SState :=
  let params := params0.SetDefaults
  let cached : Option UserListResponse :=
    if UserService.isCacheableQuery params then
      UserService.getUserListFromCache st.cache
        (UserService.buildUserListCacheKey params)
    else none
  match cached with
  | some l => (.ok (l.users, l.total), st)
  | none =>
    match UserRepository.GetAll st.store params with
    | .error e => (.error ("failed to get users: " ++ e), st)
    | .ok (users, total) =>
      if UserService.isCacheableQuery params then
        let l : UserListResponse :=
          { users := users.map User.toResponseUser, total := total,
            page := params.page, limit := params.limit }
        let env2 := UserService.cacheUserList st.cache
          (UserService.buildUserListCacheKey params) l
        (.ok (users, total), { st with cache := env2 })
      else (.ok (users, total), st)

/-! ## Helper lemmas -/

/-- Strings with equal character data are equal. -/
theorem string_eq_of_data_eq {a b : String} (h : a.data = b.data) : a = b := by
  cases a; cases b; exact congrArg String.mk h

/-- Two namespaced keys built from distinct fixed parts differ: a position
inside both fixed parts where the characters disagree separates every pair of
suffixes. -/
theorem key_head_ne (p q : String) (i : Nat) (hip : i < p.data.length)
    (hiq : i < q.data.length) (hpq : p.data[i]? ≠ q.data[i]?) :
    ∀ a b : String, p ++ a ≠ q ++ b := by
  intro a b h
  have hd : p.data ++ a.data = q.data ++ b.data := by
    have h2 := congrArg String.data h
    rwa [String.data_append, String.data_append] at h2
  have h3 : (p.data ++ a.data)[i]? = (q.data ++ b.data)[i]? := by rw [hd]
  rw [List.getElem?_append_left hip, List.getElem?_append_left hiq] at h3
  exact hpq h3

/-- Variant of `key_head_ne` against a plain (suffix-free) key. -/
theorem key_head_ne_plain (p q : String) (i : Nat) (hip : i < p.data.length)
    (hpq : p.data[i]? ≠ q.data[i]?) :
    ∀ a : String, p ++ a ≠ q := by
  intro a h
  have hd : p.data ++ a.data = q.data := by
    have h2 := congrArg String.data h
    rwa [String.data_append] at h2
  have h3 : (p.data ++ a.data)[i]? = q.data[i]? := by rw [hd]
  rw [List.getElem?_append_left hip] at h3
  exact hpq h3

/-- A shared fixed part is cancellable: equal keys force equal suffixes. -/
theorem key_suffix_inj {p a b : String} (h : p ++ a = p ++ b) : a = b := by
  have hd : p.data ++ a.data = p.data ++ b.data := by
    have h2 := congrArg String.data h
    rwa [String.data_append, String.data_append] at h2
  exact string_eq_of_data_eq (List.append_cancel_left hd)

/-- `uKey ≠ eKey` for all suffixes. -/
theorem uKey_ne_eKey (a b : String) : CacheKeyUser a ≠ CacheKeyUserByEmail b :=
  key_head_ne "user:id:" "user:email:" 5 (by decide) (by decide) (by decide) a b

/-- `uKey ≠ nKey` for all suffixes. -/
theorem uKey_ne_nKey (a b : String) : CacheKeyUser a ≠ CacheKeyUserUsername b :=
  key_head_ne "user:id:" "user:username:" 5 (by decide) (by decide) (by decide) a b

/-- `eKey ≠ nKey` for all suffixes. -/
theorem eKey_ne_nKey (a b : String) :
    CacheKeyUserByEmail a ≠ CacheKeyUserUsername b :=
  key_head_ne "user:email:" "user:username:" 5 (by decide) (by decide) (by decide) a b

/-- `uKey ≠ exKey` (either existence field) for all suffixes. -/
theorem uKey_ne_exKeyU (a b : String) :
    CacheKeyUser a ≠ CacheKeyUserExists "username" b :=
  key_head_ne "user:id:" ("user:exists:" ++ "username" ++ ":") 5
    (by decide) (by decide) (by decide) a b

theorem uKey_ne_exKeyE (a b : String) :
    CacheKeyUser a ≠ CacheKeyUserExists "email" b :=
  key_head_ne "user:id:" ("user:exists:" ++ "email" ++ ":") 5
    (by decide) (by decide) (by decide) a b

/-- `eKey ≠ exKey` (either existence field) for all suffixes. -/
theorem eKey_ne_exKeyU (a b : String) :
    CacheKeyUserByEmail a ≠ CacheKeyUserExists "username" b :=
  key_head_ne "user:email:" ("user:exists:" ++ "username" ++ ":") 6
    (by decide) (by decide) (by decide) a b

theorem eKey_ne_exKeyE (a b : String) :
    CacheKeyUserByEmail a ≠ CacheKeyUserExists "email" b :=
  key_head_ne "user:email:" ("user:exists:" ++ "email" ++ ":") 6
    (by decide) (by decide) (by decide) a b

/-- `nKey ≠ exKey` (either existence field) for all suffixes. -/
theorem nKey_ne_exKeyU (a b : String) :
    CacheKeyUserUsername a ≠ CacheKeyUserExists "username" b :=
  key_head_ne "user:username:" ("user:exists:" ++ "username" ++ ":") 6
    (by decide) (by decide) (by decide) a b

theorem nKey_ne_exKeyE (a b : String) :
    CacheKeyUserUsername a ≠ CacheKeyUserExists "email" b :=
  key_head_ne "user:username:" ("user:exists:" ++ "email" ++ ":") 6
    (by decide) (by decide) (by decide) a b

/-- The two existence namespaces never collide. -/
theorem exKeyU_ne_exKeyE (a b : String) :
    CacheKeyUserExists "username" a ≠ CacheKeyUserExists "email" b :=
  key_head_ne ("user:exists:" ++ "username" ++ ":") ("user:exists:" ++ "email" ++ ":")
    12 (by decide) (by decide) (by decide) a b

/-- No entity/existence key is the stats key. -/
theorem uKey_ne_stats (a : String) : CacheKeyUser a ≠ CacheKeyUserStats :=
  key_head_ne_plain "user:id:" "user:stats" 5 (by decide) (by decide) a

theorem eKey_ne_stats (a : String) : CacheKeyUserByEmail a ≠ CacheKeyUserStats :=
  key_head_ne_plain "user:email:" "user:stats" 5 (by decide) (by decide) a

theorem nKey_ne_stats (a : String) : CacheKeyUserUsername a ≠ CacheKeyUserStats :=
  key_head_ne_plain "user:username:" "user:stats" 5 (by decide) (by decide) a

theorem exKeyU_ne_stats (a : String) :
    CacheKeyUserExists "username" a ≠ CacheKeyUserStats :=
  key_head_ne_plain ("user:exists:" ++ "username" ++ ":") "user:stats" 5
    (by decide) (by decide) a

theorem exKeyE_ne_stats (a : String) :
    CacheKeyUserExists "email" a ≠ CacheKeyUserStats :=
  key_head_ne_plain ("user:exists:" ++ "email" ++ ":") "user:stats" 5
    (by decide) (by decide) a

/-- Cache-operation projections: set and delete never change the oracles. -/
theorem cacheSet_getFail (env : CacheEnv) (k : String) (v : CVal) :
    (cacheSet env k v).getFail = env.getFail := by
  unfold cacheSet; split <;> rfl

theorem cacheSet_setFail (env : CacheEnv) (k : String) (v : CVal) :
    (cacheSet env k v).setFail = env.setFail := by
  unfold cacheSet; split <;> rfl

theorem cacheSet_delFail (env : CacheEnv) (k : String) (v : CVal) :
    (cacheSet env k v).delFail = env.delFail := by
  unfold cacheSet; split <;> rfl

theorem cacheDel_getFail (env : CacheEnv) (k : String) :
    (cacheDel env k).getFail = env.getFail := by
  unfold cacheDel; split <;> rfl

theorem cacheDel_setFail (env : CacheEnv) (k : String) :
    (cacheDel env k).setFail = env.setFail := by
  unfold cacheDel; split <;> rfl

theorem cacheDel_delFail (env : CacheEnv) (k : String) :
    (cacheDel env k).delFail = env.delFail := by
  unfold cacheDel; split <;> rfl

/-- Lookup at another key is unaffected by a set. -/
theorem cacheSet_data_ne (env : CacheEnv) (k k2 : String) (v : CVal)
    (h : k2 ≠ k) : (cacheSet env k v).data k2 = env.data k2 := by
  unfold cacheSet; split
  · rfl
  · simp [h]

/-- A set that does not fail lands in the map. -/
theorem cacheSet_data_self (env : CacheEnv) (k : String) (v : CVal)
    (h : env.setFail k = false) : (cacheSet env k v).data k = some v := by
  unfold cacheSet; rw [h]; simp

/-- Lookup at another key is unaffected by a delete. -/
theorem cacheDel_data_ne (env : CacheEnv) (k k2 : String)
    (h : k2 ≠ k) : (cacheDel env k).data k2 = env.data k2 := by
  unfold cacheDel; split
  · rfl
  · simp [h]

/-- A delete that does not fail removes the key. -/
theorem cacheDel_data_self (env : CacheEnv) (k : String)
    (h : env.delFail k = false) : (cacheDel env k).data k = none := by
  unfold cacheDel; rw [h]; simp

/-- `find?` success gives membership of a satisfying element, hence `any`. -/
theorem any_of_find? {p : User → Bool} {l : List User} {u : User}
    (h : l.find? p = some u) : l.any p = true :=
  List.any_eq_true.mpr ⟨u, List.mem_of_find?_eq_some h, List.find?_some h⟩

/-- Unfolding a successful `GetByID`: the id is well-formed and the row is
the first live match. -/
theorem getByID_ok_elim {store : List User} {id : String} {u : User}
    (h : UserRepository.GetByID store id = .ok u) :
    isValidObjectId id = true ∧ store.find? (liveWithId id) = some u := by
  unfold UserRepository.GetByID at h
  by_cases hv : isValidObjectId id
  · refine ⟨hv, ?_⟩
    rw [if_neg (by simp [hv])] at h
    cases hf : store.find? (liveWithId id) with
    | none => rw [hf] at h; exact absurd h (by simp)
    | some w => rw [hf] at h; simpa using h
  · rw [if_pos (by simp [hv])] at h
    exact absurd h (by simp)

/-- `applyUpdateMap` keeps the id, and keeps the tombstone when the update
document does not set one. -/
theorem applyUpdateMap_live (x : User) (m : UpdateMap) (now : Nat)
    (id : String) (hm : m.deleted_at = none) :
    liveWithId id (applyUpdateMap x m now) = liveWithId id x := by
  unfold liveWithId applyUpdateMap
  rw [hm]

/-- Mongo `UpdateOne` through the embedding: mapping the `$set` over the
store rewrites exactly the first live match that `find?` located. -/
theorem find_map_update (store : List User) (id : String) (m : UpdateMap)
    (now : Nat) (u : User) (hm : m.deleted_at = none)
    (hf : store.find? (liveWithId id) = some u) :
    (store.map (fun x => if liveWithId id x then applyUpdateMap x m now else x)).find?
      (liveWithId id) = some (applyUpdateMap u m now) := by
  induction store with
  | nil => simp at hf
  | cons x xs ih =>
    by_cases hx : liveWithId id x = true
    · rw [List.find?_cons_of_pos _ hx] at hf
      have hux : x = u := by simpa using hf
      have hlive : liveWithId id (applyUpdateMap x m now) = true := by
        rw [applyUpdateMap_live _ _ _ _ hm]; exact hx
      rw [List.map_cons, if_pos hx, List.find?_cons_of_pos _ hlive, hux]
    · rw [List.find?_cons_of_neg _ hx] at hf
      rw [List.map_cons, if_neg hx, List.find?_cons_of_neg _ hx]
      exact ih hf

/-! ## Concrete fixtures used by the counterexample theorems and witnesses -/

/-- A healthy empty cache: no entries, no failures. -/
def emptyCache : CacheEnv :=
  { data := fun _ => none, getFail := fun _ => false,
    setFail := fun _ => false, delFail := fun _ => false }

/-- A well-formed ObjectID hex string. -/
def oid1 : String := "507f1f77bcf86cd799439011"

/-- A second well-formed ObjectID hex string. -/
def oid2 : String := "507f1f77bcf86cd799439012"

/-- A stored, verified user. -/
def u0 : User :=
  { id := oid1, createdAt := 0, updatedAt := 0, username := "user1",
    email := "old@ex.co", password := "h", salt := "s", isActive := true,
    isVerified := true, emailVerifiedAt := some 5, roles := ["user"] }

/-- A stored, not-yet-verified user. -/
def uUnv : User :=
  { id := oid2, createdAt := 0, updatedAt := 0, username := "user9",
    email := "u9@ex.co", password := "h", salt := "s", isActive := true,
    isVerified := false, roles := ["user"] }

/-- A partial update that only changes the email. -/
def req5 : UpdateUserRequest := { email := some "new@ex.co" }

/-- List-query parameters that normalize to the defaults. -/
def dparams : UsersQueryParams := { page := 0, limit := 0 }

/-- The list-cache key of the default query. -/
def listKey0 : String := UserService.buildUserListCacheKey dparams.SetDefaults

/-- A stale cached (empty) default list page. -/
def staleList : UserListResponse := { users := [], total := 0, page := 1, limit := 20 }

/-- A cache already holding the default list page and the stats blob. -/
def cache2 : CacheEnv :=
  { emptyCache with data := fun k =>
      if k = listKey0 then some (.list staleList)
      else if k = CacheKeyUserStats then some .stats
      else none }

/-- A valid creation request distinct from the stored user. -/
def req2 : CreateUserRequest :=
  { username := "user2", email := "u2@ex.co", password := "Password1" }

/-- A successful creation against the store `[u0]` with `cache2`. -/
def createRun : Except String User × SState :=
  UserService.CreateUser (fun s => s) oid2 "ss" 3
    { store := [u0], cache := cache2 } req2

/-- The entity built by `NewUser` on the witness inputs. -/
def c10user : User :=
  { id := oid1, createdAt := 0, updatedAt := 0, username := "usera",
    email := "x@b.co", password := "Password1s", salt := "s",
    isActive := true, isVerified := false, roles := ["user"] }

/-! ## Claim theorems -/

/-- C4, counterexample: the credential-hashing helper's password policy is
not strictly stronger than the service-level one — there is no password the
service-level validator accepts and the helper's validator rejects (the two
validators are the same function of the input). -/
theorem hashing_policy_not_strictly_stronger :
    ¬ ∃ p : String, ValidatePassword p = none ∧
        PasswordService.ValidatePassword p ≠ none := by
  rintro ⟨p, h1, h2⟩
  exact h2 ((show PasswordService.ValidatePassword p = ValidatePassword p from rfl).trans h1)

/-- C4, amended: the policy the credential hashing helper enforces is
extensionally identical to the service-level policy — 8–128 bytes with at
least one uppercase letter, one lowercase letter and one digit; it adds no
separate 3-of-4 character-class rule, although every accepted password does
satisfy at least 3 of the 4 classes {upper, lower, digit, symbol}. -/
theorem hashing_policy_equals_service_policy (p : String) :
    PasswordService.ValidatePassword p = ValidatePassword p ∧
    (PasswordService.ValidatePassword p = none →
      8 ≤ goLen p ∧ goLen p ≤ 128 ∧
      3 ≤ ((if p.data.any isUpperA then 1 else 0) +
           (if p.data.any isLowerA then 1 else 0) +
           (if p.data.any isDigitA then 1 else 0) +
           (if p.data.any (fun c => !isAlnumA c) then 1 else 0))) := by
  refine ⟨rfl, ?_⟩
  intro h
  unfold PasswordService.ValidatePassword at h
  split at h
  · exact absurd h (by simp)
  · split at h
    · exact absurd h (by simp)
    · split at h
      · exact absurd h (by simp)
      · rename_i h8 h128 hcls
        simp only [Bool.not_eq_true', Bool.not_eq_false] at hcls
        simp only [Bool.and_eq_true] at hcls
        obtain ⟨⟨hU, hL⟩, hD⟩ := hcls
        refine ⟨by omega, by omega, ?_⟩
        rw [if_pos hU, if_pos hL, if_pos hD]
        split <;> omega

/-- C4 witness: the amended statement evaluated at a concrete password. -/
theorem hashing_policy_equals_service_policy_witness :
    PasswordService.ValidatePassword "Password1" = ValidatePassword "Password1" ∧
    (8 ≤ goLen "Password1" ∧ goLen "Password1" ≤ 128 ∧
      3 ≤ ((if ("Password1" : String).data.any isUpperA then 1 else 0) +
           (if ("Password1" : String).data.any isLowerA then 1 else 0) +
           (if ("Password1" : String).data.any isDigitA then 1 else 0) +
           (if ("Password1" : String).data.any (fun c => !isAlnumA c) then 1 else 0))) :=
  ⟨(hashing_policy_equals_service_policy "Password1").1,
   (hashing_policy_equals_service_policy "Password1").2 (by decide)⟩

/-- C5 (code bug): the service-level partial update writes the new email
through the repository `$set` path and never routes through
`User.UpdateUser`, so the stored user keeps the verified flag and the
verification timestamp after an email change — while the entity model's own
`User.UpdateUser` on the same input clears both. -/
theorem serviceUpdate_email_change_keeps_verified :
    (UserService.UpdateUser { store := [u0], cache := emptyCache } oid1 req5 10).1 =
      .ok { u0 with email := "new@ex.co", updatedAt := 10 } ∧
    ({ u0 with email := "new@ex.co", updatedAt := 10 } : User).isVerified = true ∧
    ({ u0 with email := "new@ex.co", updatedAt := 10 } : User).emailVerifiedAt = some 5 ∧
    User.UpdateUser u0 req5.ToMap 10 =
      .ok { u0 with email := "new@ex.co", updatedAt := 10,
                    isVerified := false, emailVerifiedAt := none } :=
  ⟨rfl, rfl, rfl, rfl⟩

/-- C2 (code bug): `invalidateUserListCaches` deletes nothing (its body only
logs), and `VerifyUser` does not even call it, so the user-list cache entry
cached before a create, verify or delete survives the mutation and a
subsequent default list read is served from the stale entry; only the
aggregate-statistics key is actually deleted. -/
theorem mutations_leave_list_cache_stale :
    createRun.1.isOk = true ∧
    createRun.2.store.length = 2 ∧
    createRun.2.cache.data listKey0 = some (.list staleList) ∧
    createRun.2.cache.data CacheKeyUserStats = none ∧
    (UserService.GetUsers createRun.2 dparams).1 = .ok ([], 0) ∧
    (UserService.VerifyUser { store := [uUnv], cache := cache2 } oid2 7).1 = .ok () ∧
    (UserService.VerifyUser { store := [uUnv], cache := cache2 } oid2 7).2.cache.data
      listKey0 = some (.list staleList) ∧
    (UserService.DeleteUser { store := [u0], cache := cache2 } oid1 9).1 = .ok () ∧
    (UserService.DeleteUser { store := [u0], cache := cache2 } oid1 9).2.cache.data
      listKey0 = some (.list staleList) :=
  ⟨rfl, rfl, rfl, rfl, rfl, rfl, rfl, rfl, rfl⟩

/-- Characterization of `SetDefaults` on page and limit. -/
theorem setDefaults_page_limit (q : UsersQueryParams) :
    q.SetDefaults.page = (if q.page < 1 then 1 else q.page) ∧
    q.SetDefaults.limit = (if q.limit < 1 || q.limit > 100 then 20 else q.limit) := by
  by_cases h1 : q.page < 1 <;> by_cases h2 : q.limit < 1 || q.limit > 100 <;>
    simp [UsersQueryParams.SetDefaults, h1, h2] <;> repeat' split <;> simp_all

/-- `int64wrap` is the identity on values already inside the int64 range
that arise here: non-negative and below `2^63`. -/
theorem int64wrap_eq_self {x : Int} (h0 : 0 ≤ x) (h1 : x < 2 ^ 63) :
    int64wrap x = x := by
  unfold int64wrap
  have hm : (x + 2 ^ 63) % 2 ^ 64 = x + 2 ^ 63 :=
    Int.emod_eq_of_lt (by omega) (by omega)
  omega

set_option maxRecDepth 8192 in
/-- C6, counterexample: a page the handler and `SetDefaults` both accept
(`2^62 ≥ 1`, limit 20 inside [1,100]) is left untouched by normalization,
yet the machine-int skip product `(2^62 - 1) * 20` wraps negative and the
query fails — so the query can fail on an accepted page after the defaults
ran. -/
theorem getAll_huge_page_wraps_negative :
    ({ page := 2 ^ 62, limit := 20 } : UsersQueryParams).SetDefaults.page = 2 ^ 62 ∧
    ({ page := 2 ^ 62, limit := 20 } : UsersQueryParams).SetDefaults.limit = 20 ∧
    UserRepository.GetAll ([] : List User) { page := 2 ^ 62, limit := 20 } =
      .error "failed to find users: negative skip" :=
  ⟨by decide, by decide, rfl⟩

/-- C6, amended: every list query is normalized before it runs — a page
below 1 becomes 1 and a limit outside [1,100] becomes 20, in-range values
pass through — and, provided the skip product `(page-1)*limit` of the
normalized values fits below `2^63` (no 64-bit overflow), `GetAll` succeeds,
returning the 1-indexed slice that drops `(page-1)*limit` rows of the
filtered, sorted cursor and takes `limit` rows. -/
theorem list_query_defaults (store : List User) (params : UsersQueryParams)
    (hno : (params.SetDefaults.page - 1) * params.SetDefaults.limit < 2 ^ 63) :
    params.SetDefaults.page = (if params.page < 1 then 1 else params.page) ∧
    params.SetDefaults.limit =
      (if params.limit < 1 || params.limit > 100 then 20 else params.limit) ∧
    1 ≤ params.SetDefaults.page ∧
    1 ≤ params.SetDefaults.limit ∧ params.SetDefaults.limit ≤ 100 ∧
    UserRepository.GetAll store params =
      .ok (((UserRepository.queryPipeline store params.SetDefaults).drop
              ((params.SetDefaults.page - 1) * params.SetDefaults.limit).toNat).take
              params.SetDefaults.limit.toNat,
            ((store.filter (queryFilter params.SetDefaults)).length : Int)) := by
  obtain ⟨hp, hl⟩ := setDefaults_page_limit params
  have hp1 : 1 ≤ params.SetDefaults.page := by rw [hp]; split <;> omega
  have hl1 : 1 ≤ params.SetDefaults.limit := by
    rw [hl]; split
    · omega
    · rename_i hcond
      simp only [Bool.or_eq_true, decide_eq_true_eq, not_or] at hcond
      omega
  have hl2 : params.SetDefaults.limit ≤ 100 := by
    rw [hl]; split
    · omega
    · rename_i hcond
      simp only [Bool.or_eq_true, decide_eq_true_eq, not_or] at hcond
      omega
  refine ⟨hp, hl, hp1, hl1, hl2, ?_⟩
  have hpage0 : 0 ≤ params.SetDefaults.page - 1 := by omega
  have hprod0 : 0 ≤ (params.SetDefaults.page - 1) * params.SetDefaults.limit :=
    Int.mul_nonneg hpage0 (by omega)
  have hpagelt : params.SetDefaults.page - 1 < 2 ^ 63 := by
    have hle : params.SetDefaults.page - 1 ≤
        (params.SetDefaults.page - 1) * params.SetDefaults.limit :=
      le_mul_of_one_le_right hpage0 hl1
    omega
  have hw1 : int64wrap (params.SetDefaults.page - 1) = params.SetDefaults.page - 1 :=
    int64wrap_eq_self hpage0 hpagelt
  have hw2 : int64wrap ((params.SetDefaults.page - 1) * params.SetDefaults.limit) =
      (params.SetDefaults.page - 1) * params.SetDefaults.limit :=
    int64wrap_eq_self hprod0 hno
  simp only [UserRepository.GetAll]
  rw [hw1, hw2]
  have hskip : ¬ ((params.SetDefaults.page - 1) * params.SetDefaults.limit < 0) := by
    omega
  rw [if_neg hskip]

set_option maxRecDepth 8192 in
/-- C6 witness: the amended statement at the default-normalizing query
parameters, whose skip product is 0. -/
theorem list_query_defaults_witness :
    (dparams.SetDefaults.page - 1) * dparams.SetDefaults.limit < 2 ^ 63 ∧
    UserRepository.GetAll ([] : List User) dparams =
      .ok (((UserRepository.queryPipeline ([] : List User) dparams.SetDefaults).drop
              ((dparams.SetDefaults.page - 1) * dparams.SetDefaults.limit).toNat).take
              dparams.SetDefaults.limit.toNat,
            ((List.filter (queryFilter dparams.SetDefaults) ([] : List User)).length : Int)) :=
  ⟨by decide, (list_query_defaults ([] : List User) dparams (by decide)).2.2.2.2.2⟩

/-- Unfolding a successful `NewUser`: the stored identity fields are the
lowercased, trimmed inputs. -/
theorem NewUser_ok_elim {sha256hex : String → String} {newId salt : String}
    {now : Nat} {username email password : String} {u : User}
    (h : NewUser sha256hex newId salt now username email password = .ok u) :
    u.username = toLowerGo (trimSpace username) ∧
    u.email = toLowerGo (trimSpace email) := by
  unfold NewUser at h
  split at h
  · exact absurd h (by simp)
  · exact absurd h (by simp)
  · exact absurd h (by simp)
  · injection h with h2
    rw [← h2]
    exact ⟨rfl, rfl⟩

/-- C10: every input `NewUser` accepts is stored with lowercased,
whitespace-trimmed username and email, so two accepted create requests whose
usernames and emails differ only in ASCII letter case or surrounding
whitespace produce the same stored identity. -/
theorem NewUser_normalizes_identity (sha256hex : String → String)
    (newId salt : String) (now : Nat) (username email password : String)
    (u : User)
    (h : NewUser sha256hex newId salt now username email password = .ok u) :
    u.username = toLowerGo (trimSpace username) ∧
    u.email = toLowerGo (trimSpace email) ∧
    ∀ newId2 salt2 now2 username2 email2 password2 u2,
      NewUser sha256hex newId2 salt2 now2 username2 email2 password2 = .ok u2 →
      toLowerGo (trimSpace username2) = toLowerGo (trimSpace username) →
      toLowerGo (trimSpace email2) = toLowerGo (trimSpace email) →
      u2.username = u.username ∧ u2.email = u.email := by
  obtain ⟨h1, h2⟩ := NewUser_ok_elim h
  refine ⟨h1, h2, ?_⟩
  intro newId2 salt2 now2 username2 email2 password2 u2 h3 h4 h5
  obtain ⟨g1, g2⟩ := NewUser_ok_elim h3
  exact ⟨by rw [g1, h4, ← h1], by rw [g2, h5, ← h2]⟩

/-- C10 witness: `NewUser` on an input with uppercase and padding stores the
normalized identity. -/
theorem NewUser_normalizes_identity_witness :
    c10user.username = toLowerGo (trimSpace " UserA ") ∧
    c10user.email = toLowerGo (trimSpace "X@B.co") :=
  ⟨(NewUser_normalizes_identity (fun s => s) oid1 "s" 0 " UserA " "X@B.co"
      "Password1" c10user rfl).1,
   (NewUser_normalizes_identity (fun s => s) oid1 "s" 0 " UserA " "X@B.co"
      "Password1" c10user rfl).2.1⟩

/-- C3: for every (username, email, password) triple passing the three
validators, `NewUser` succeeds, and on the constructed user `CheckPassword`
accepts the original password and rejects every other password — under the
assumption that the external SHA-256 hex digest is injective on the salted
inputs involved. -/
theorem NewUser_CheckPassword_correct (sha256hex : String → String)
    (newId salt : String) (now : Nat) (username email password : String)
    (hinj : ∀ p1 p2 : String, sha256hex (p1 ++ salt) = sha256hex (p2 ++ salt) → p1 = p2)
    (hu : ValidateUsername username = none)
    (he : ValidateEmail email = none)
    (hp : ValidatePassword password = none) :
    ∃ u, NewUser sha256hex newId salt now username email password = .ok u ∧
      u.CheckPassword sha256hex password = true ∧
      ∀ p2, p2 ≠ password → u.CheckPassword sha256hex p2 = false := by
  refine ⟨{ id := newId, createdAt := now, updatedAt := now,
            username := toLowerGo (trimSpace username),
            email := toLowerGo (trimSpace email),
            password := hashPassword sha256hex password salt, salt := salt,
            isActive := true, isVerified := false, roles := ["user"] },
          ?_, ?_, ?_⟩
  · unfold NewUser
    rw [hu, he, hp]
  · simp [User.CheckPassword]
  · intro p2 hne
    have hneq : hashPassword sha256hex password salt ≠
        hashPassword sha256hex p2 salt := by
      intro hEq
      exact hne (hinj password p2 hEq).symm
    simp only [User.CheckPassword]
    simpa using hneq

/-- C3 witness: a concrete valid triple with the identity digest (injective
after appending the empty salt). -/
theorem NewUser_CheckPassword_witness :
    ∃ u, NewUser (fun s => s) oid1 "" 0 "user1" "a@b.co" "Password1" = .ok u ∧
      u.CheckPassword (fun s => s) "Password1" = true ∧
      ∀ p2, p2 ≠ "Password1" → u.CheckPassword (fun s => s) p2 = false :=
  NewUser_CheckPassword_correct (fun s => s) oid1 "" 0 "user1" "a@b.co" "Password1"
    (by intro p1 p2 h; simpa using h) (by decide) (by decide) (by decide)

/-- A non-failing `cacheUser` lands the entity under all three namespace
keys (they are pairwise distinct for every id/email/username). -/
theorem cacheUser_populates (env : CacheEnv) (u : User)
    (hset : ∀ k, env.setFail k = false) :
    (UserService.cacheUser env u).data (CacheKeyUser u.id) = some (.user u) ∧
    (UserService.cacheUser env u).data (CacheKeyUserByEmail u.email) = some (.user u) ∧
    (UserService.cacheUser env u).data (CacheKeyUserUsername u.username) = some (.user u) := by
  unfold UserService.cacheUser
  have hs1 : ∀ k, (cacheSet env (CacheKeyUser u.id) (.user u)).setFail k = false := by
    intro k; rw [cacheSet_setFail]; exact hset k
  have hs2 : ∀ k, (cacheSet (cacheSet env (CacheKeyUser u.id) (.user u))
      (CacheKeyUserByEmail u.email) (.user u)).setFail k = false := by
    intro k; rw [cacheSet_setFail]; exact hs1 k
  refine ⟨?_, ?_, ?_⟩
  · rw [cacheSet_data_ne _ _ _ _ (uKey_ne_nKey u.id u.username),
        cacheSet_data_ne _ _ _ _ (uKey_ne_eKey u.id u.email),
        cacheSet_data_self _ _ _ (hset _)]
  · rw [cacheSet_data_ne _ _ _ _ (eKey_ne_nKey u.email u.username),
        cacheSet_data_self _ _ _ (hs1 _)]
  · rw [cacheSet_data_self _ _ _ (hs2 _)]

/-- C1: each of the three cache-aside reads, on a cache miss followed by a
successful store lookup, returns the stored entity and leaves a cache state
in which the entity sits under all three namespace keys (id, email,
username), provided the cache accepts writes. -/
theorem cacheAside_read_populates_all_keys
    (st : SState) (id email username : String) (u v w : User)
    (hset : ∀ k, st.cache.setFail k = false)
    (h1 : UserService.getUserFromCache st.cache (CacheKeyUser id) = none)
    (h2 : UserRepository.GetByID st.store id = .ok u)
    (h3 : UserService.getUserFromCache st.cache (CacheKeyUserByEmail email) = none)
    (h4 : UserRepository.GetByEmail st.store email = .ok v)
    (h5 : UserService.getUserFromCache st.cache (CacheKeyUserUsername username) = none)
    (h6 : UserRepository.GetByUsername st.store username = .ok w) :
    (UserService.GetUserByID st id =
        (.ok u, { st with cache := UserService.cacheUser st.cache u }) ∧
      (UserService.cacheUser st.cache u).data (CacheKeyUser u.id) = some (.user u) ∧
      (UserService.cacheUser st.cache u).data (CacheKeyUserByEmail u.email) = some (.user u) ∧
      (UserService.cacheUser st.cache u).data (CacheKeyUserUsername u.username) = some (.user u)) ∧
    (UserService.GetUserByEmail st email =
        (.ok v, { st with cache := UserService.cacheUser st.cache v }) ∧
      (UserService.cacheUser st.cache v).data (CacheKeyUser v.id) = some (.user v) ∧
      (UserService.cacheUser st.cache v).data (CacheKeyUserByEmail v.email) = some (.user v) ∧
      (UserService.cacheUser st.cache v).data (CacheKeyUserUsername v.username) = some (.user v)) ∧
    (UserService.GetUserByUsername st username =
        (.ok w, { st with cache := UserService.cacheUser st.cache w }) ∧
      (UserService.cacheUser st.cache w).data (CacheKeyUser w.id) = some (.user w) ∧
      (UserService.cacheUser st.cache w).data (CacheKeyUserByEmail w.email) = some (.user w) ∧
      (UserService.cacheUser st.cache w).data (CacheKeyUserUsername w.username) = some (.user w)) := by
  obtain ⟨pu1, pu2, pu3⟩ := cacheUser_populates st.cache u hset
  obtain ⟨pv1, pv2, pv3⟩ := cacheUser_populates st.cache v hset
  obtain ⟨pw1, pw2, pw3⟩ := cacheUser_populates st.cache w hset
  refine ⟨⟨?_, pu1, pu2, pu3⟩, ⟨?_, pv1, pv2, pv3⟩, ⟨?_, pw1, pw2, pw3⟩⟩
  · unfold UserService.GetUserByID
    rw [h1, h2]
  · unfold UserService.GetUserByEmail
    rw [h3, h4]
  · unfold UserService.GetUserByUsername
    rw [h5, h6]

/-- C1 witness: the by-id read on a one-user store with a healthy empty
cache, plus the three populated keys. -/
theorem cacheAside_read_populates_all_keys_witness :
    UserService.GetUserByID { store := [u0], cache := emptyCache } oid1 =
      (.ok u0, { store := [u0], cache := UserService.cacheUser emptyCache u0 }) ∧
    (UserService.cacheUser emptyCache u0).data (CacheKeyUser u0.id) = some (.user u0) ∧
    (UserService.cacheUser emptyCache u0).data (CacheKeyUserByEmail u0.email) = some (.user u0) ∧
    (UserService.cacheUser emptyCache u0).data (CacheKeyUserUsername u0.username) = some (.user u0) :=
  (cacheAside_read_populates_all_keys { store := [u0], cache := emptyCache }
    oid1 "old@ex.co" "user1" u0 u0 u0 (fun _ => rfl) rfl rfl rfl rfl rfl rfl).1

/-- C8: on a user that is not yet verified (cache cold for its id key, cache
deletes healthy for it), the first `VerifyUser` succeeds and the store then
holds the user with the verified flag set; a second `VerifyUser` on the
resulting state is rejected with the domain error `user is already verified`
and leaves the store untouched. -/
theorem verify_then_verify_again
    (st : SState) (id : String) (u : User) (t1 t2 : Nat)
    (hmiss : UserService.getUserFromCache st.cache (CacheKeyUser id) = none)
    (hfound : UserRepository.GetByID st.store id = .ok u)
    (hunv : u.isVerified = false)
    (hdel : st.cache.delFail (CacheKeyUser id) = false) :
    (UserService.VerifyUser st id t1).1 = .ok () ∧
    (∃ u2, UserRepository.GetByID (UserService.VerifyUser st id t1).2.store id = .ok u2 ∧
       u2.isVerified = true) ∧
    (UserService.VerifyUser (UserService.VerifyUser st id t1).2 id t2).1 =
      .error "user is already verified" ∧
    (UserService.VerifyUser (UserService.VerifyUser st id t1).2 id t2).2.store =
      (UserService.VerifyUser st id t1).2.store := by
  obtain ⟨hv, hf⟩ := getByID_ok_elim hfound
  have hany := any_of_find? hf
  have hlive : liveWithId id u = true := List.find?_some hf
  have hid : u.id = id := by
    unfold liveWithId at hlive
    simp only [Bool.and_eq_true, beq_iff_eq] at hlive
    exact hlive.1
  have hMark : UserRepository.MarkAsVerified st.store id t1 =
      .ok (st.store.map (fun x => if liveWithId id x then
        applyUpdateMap x { is_verified := some true, email_verified_at := some t1 } t1
        else x)) := by
    unfold UserRepository.MarkAsVerified UserRepository.Update
    simp [hv, hany]
  have hrun1 : UserService.VerifyUser st id t1 =
      (.ok (), ⟨st.store.map (fun x => if liveWithId id x then
          applyUpdateMap x { is_verified := some true, email_verified_at := some t1 } t1
          else x),
        UserService.invalidateUserStats
          (UserService.invalidateUserCaches (UserService.cacheUser st.cache u) u)⟩) := by
    unfold UserService.VerifyUser UserService.GetUserByID
    simp [hmiss, hfound, hunv, hMark]
  have hGet2 : UserRepository.GetByID (st.store.map (fun x => if liveWithId id x then
      applyUpdateMap x { is_verified := some true, email_verified_at := some t1 } t1
      else x)) id =
      .ok (applyUpdateMap u { is_verified := some true, email_verified_at := some t1 } t1) := by
    unfold UserRepository.GetByID
    rw [if_neg (by simp [hv]), find_map_update st.store id _ t1 u rfl hf]
  have hdataAfter : (UserService.invalidateUserStats
      (UserService.invalidateUserCaches (UserService.cacheUser st.cache u) u)).data
        (CacheKeyUser id) = none := by
    unfold UserService.invalidateUserStats UserService.invalidateUserCaches
    rw [cacheDel_data_ne _ _ _ (uKey_ne_stats id),
        cacheDel_data_ne _ _ _ (uKey_ne_exKeyU id u.username),
        cacheDel_data_ne _ _ _ (uKey_ne_exKeyE id u.email),
        cacheDel_data_ne _ _ _ (uKey_ne_nKey id u.username),
        cacheDel_data_ne _ _ _ (uKey_ne_eKey id u.email), hid]
    exact cacheDel_data_self _ _ (by
      unfold UserService.cacheUser
      rw [cacheSet_delFail, cacheSet_delFail, cacheSet_delFail]
      exact hdel)
  have hcg : cacheGet (UserService.invalidateUserStats
      (UserService.invalidateUserCaches (UserService.cacheUser st.cache u) u))
        (CacheKeyUser id) = none := by
    unfold cacheGet
    split
    · rfl
    · exact hdataAfter
  have hm2 : UserService.getUserFromCache (UserService.invalidateUserStats
      (UserService.invalidateUserCaches (UserService.cacheUser st.cache u) u))
        (CacheKeyUser id) = none := by
    unfold UserService.getUserFromCache
    rw [hcg]
  have hrun2 : UserService.VerifyUser
      (⟨st.store.map (fun x => if liveWithId id x then
          applyUpdateMap x { is_verified := some true, email_verified_at := some t1 } t1
          else x),
        UserService.invalidateUserStats
          (UserService.invalidateUserCaches (UserService.cacheUser st.cache u) u)⟩ : SState)
      id t2 =
      (.error "user is already verified",
       ⟨st.store.map (fun x => if liveWithId id x then
          applyUpdateMap x { is_verified := some true, email_verified_at := some t1 } t1
          else x),
        UserService.cacheUser
          (UserService.invalidateUserStats
            (UserService.invalidateUserCaches (UserService.cacheUser st.cache u) u))
          (applyUpdateMap u { is_verified := some true, email_verified_at := some t1 } t1)⟩) := by
    unfold UserService.VerifyUser UserService.GetUserByID
    rw [hm2, hGet2]
    rfl
  refine ⟨?_, ?_, ?_, ?_⟩
  · rw [hrun1]
  · rw [hrun1]
    exact ⟨_, hGet2, rfl⟩
  · rw [hrun1]
    exact congrArg Prod.fst hrun2
  · rw [hrun1]
    exact congrArg (fun p => p.2.store) hrun2


/-- C8 witness: the two verify calls on a concrete one-user store. -/
theorem verify_then_verify_again_witness :
    (UserService.VerifyUser { store := [uUnv], cache := emptyCache } oid2 1).1 = .ok () ∧
    (∃ u2, UserRepository.GetByID
        (UserService.VerifyUser { store := [uUnv], cache := emptyCache } oid2 1).2.store
        oid2 = .ok u2 ∧ u2.isVerified = true) ∧
    (UserService.VerifyUser
        (UserService.VerifyUser { store := [uUnv], cache := emptyCache } oid2 1).2
        oid2 2).1 = .error "user is already verified" ∧
    (UserService.VerifyUser
        (UserService.VerifyUser { store := [uUnv], cache := emptyCache } oid2 1).2
        oid2 2).2.store =
      (UserService.VerifyUser { store := [uUnv], cache := emptyCache } oid2 1).2.store :=
  verify_then_verify_again { store := [uUnv], cache := emptyCache } oid2 uUnv 1 2
    rfl rfl rfl rfl

/-- Cache get at another key is unaffected by a set. -/
theorem cacheGet_set_ne (env : CacheEnv) (k k2 : String) (v : CVal)
    (h : k2 ≠ k) : cacheGet (cacheSet env k v) k2 = cacheGet env k2 := by
  unfold cacheGet
  rw [cacheSet_getFail, cacheSet_data_ne _ _ _ _ h]

/-- The email namespace key determines the email. -/
theorem eKey_inj {a b : String} (h : CacheKeyUserByEmail a = CacheKeyUserByEmail b) :
    a = b := key_suffix_inj h

/-- C7: a successful service update that changes the email deletes the cache
keys derived from the pre-mutation snapshot; in particular the old email's
namespace key is absent from the final cache (the re-population step writes
only the new email's key), so a lookup by the old email cannot be served
from cache. Stated for an email-only change with a cold entity cache, a
missing existence flag, a free new email, and a healthy delete on the old
email key. -/
theorem update_email_invalidates_old_email_key
    (st : SState) (id : String) (u : User) (req reqT : UpdateUserRequest)
    (e2 : String) (now : Nat)
    (hv : req.Validate = ([], reqT))
    (hU : reqT.username = none)
    (hE : reqT.email = some e2)
    (hch : trimSpace e2 ≠ u.email)
    (hmiss : UserService.getUserFromCache st.cache (CacheKeyUser id) = none)
    (hfound : UserRepository.GetByID st.store id = .ok u)
    (hexm0 : cacheGet st.cache (CacheKeyUserExists "email" (trimSpace e2)) = none)
    (hnoex : UserRepository.ExistsByEmail st.store (trimSpace e2) = false)
    (hdel : st.cache.delFail (CacheKeyUserByEmail u.email) = false) :
    (UserService.UpdateUser st id req now).1 = .ok (applyUpdateMap u reqT.ToMap now) ∧
    (applyUpdateMap u reqT.ToMap now).email = trimSpace e2 ∧
    (UserService.UpdateUser st id req now).2.cache.data (CacheKeyUserByEmail u.email) = none ∧
    UserService.getUserFromCache (UserService.UpdateUser st id req now).2.cache
      (CacheKeyUserByEmail u.email) = none := by
  obtain ⟨hvId, hf⟩ := getByID_ok_elim hfound
  have hany := any_of_find? hf
  have hexm1 : cacheGet (UserService.cacheUser st.cache u)
      (CacheKeyUserExists "email" (trimSpace e2)) = none := by
    unfold UserService.cacheUser
    rw [cacheGet_set_ne _ _ _ _ (Ne.symm (nKey_ne_exKeyE u.username (trimSpace e2))),
        cacheGet_set_ne _ _ _ _ (Ne.symm (eKey_ne_exKeyE u.email (trimSpace e2))),
        cacheGet_set_ne _ _ _ _ (Ne.symm (uKey_ne_exKeyE u.id (trimSpace e2)))]
    exact hexm0
  have hUpd : UserRepository.Update st.store id reqT.ToMap now =
      .ok (st.store.map (fun x => if liveWithId id x then
        applyUpdateMap x reqT.ToMap now else x)) := by
    unfold UserRepository.Update
    simp [hvId, hany]
  have hGet2 : UserRepository.GetByID (st.store.map (fun x => if liveWithId id x then
      applyUpdateMap x reqT.ToMap now else x)) id = .ok (applyUpdateMap u reqT.ToMap now) := by
    unfold UserRepository.GetByID
    rw [if_neg (by simp [hvId]), find_map_update st.store id _ now u rfl hf]
  have hUe : (applyUpdateMap u reqT.ToMap now).email = trimSpace e2 := by
    simp [applyUpdateMap, UpdateUserRequest.ToMap, hE]
  have hrunU : UserService.UpdateUser st id req now =
      (.ok (applyUpdateMap u reqT.ToMap now),
       ⟨st.store.map (fun x => if liveWithId id x then
          applyUpdateMap x reqT.ToMap now else x),
        UserService.cacheUser
          (UserService.invalidateUserCaches
            (cacheSet (UserService.cacheUser st.cache u)
              (CacheKeyUserExists "email" (trimSpace e2)) (.flag false)) u)
          (applyUpdateMap u reqT.ToMap now)⟩) := by
    simp only [UpdateUserRequest.ToMap, hU, hE, Option.map_none', Option.map_some'] at hUpd hGet2
    unfold UserService.UpdateUser UserService.GetUserByID UserService.uniqCheck
      UserService.checkUserExists
    rw [hv]
    simp only [UpdateUserRequest.ToMap, hU, hE, Option.map_none', Option.map_some']
    rw [hmiss, hfound]
    simp only [ne_eq, hch, not_false_eq_true, if_pos, if_true]
    rw [hexm1]
    simp only [hnoex]
    rw [hUpd]
    simp only [hGet2]
    simp [UpdateUserRequest.ToMap, hU, hE, UserService.invalidateUserListCaches]
  have hdelX : (cacheDel (cacheSet (UserService.cacheUser st.cache u)
      (CacheKeyUserExists "email" (trimSpace e2)) (.flag false))
      (CacheKeyUser u.id)).delFail (CacheKeyUserByEmail u.email) = false := by
    unfold UserService.cacheUser
    rw [cacheDel_delFail, cacheSet_delFail, cacheSet_delFail, cacheSet_delFail,
        cacheSet_delFail]
    exact hdel
  have hfinal : (UserService.cacheUser
      (UserService.invalidateUserCaches
        (cacheSet (UserService.cacheUser st.cache u)
          (CacheKeyUserExists "email" (trimSpace e2)) (.flag false)) u)
      (applyUpdateMap u reqT.ToMap now)).data (CacheKeyUserByEmail u.email) = none := by
    unfold UserService.cacheUser UserService.invalidateUserCaches
    rw [cacheSet_data_ne _ _ _ _ (eKey_ne_nKey u.email _),
        cacheSet_data_ne _ _ _ _
          (fun hq => absurd ((eKey_inj hq).trans hUe) (Ne.symm hch)),
        cacheSet_data_ne _ _ _ _ (Ne.symm (uKey_ne_eKey _ u.email)),
        cacheDel_data_ne _ _ _ (eKey_ne_exKeyU u.email _),
        cacheDel_data_ne _ _ _ (eKey_ne_exKeyE u.email _),
        cacheDel_data_ne _ _ _ (eKey_ne_nKey u.email _)]
    exact cacheDel_data_self _ _ hdelX
  refine ⟨?_, hUe, ?_, ?_⟩
  · rw [hrunU]
  · rw [hrunU]
    exact hfinal
  · rw [hrunU]
    have hcg : cacheGet (UserService.cacheUser
        (UserService.invalidateUserCaches
          (cacheSet (UserService.cacheUser st.cache u)
            (CacheKeyUserExists "email" (trimSpace e2)) (.flag false)) u)
        (applyUpdateMap u reqT.ToMap now)) (CacheKeyUserByEmail u.email) = none := by
      unfold cacheGet
      split
      · rfl
      · exact hfinal
    unfold UserService.getUserFromCache
    rw [hcg]

/-- C7 witness: the concrete email change old@ex.co to new@ex.co on a
one-user store. -/
theorem update_email_invalidates_old_email_key_witness :
    (UserService.UpdateUser { store := [u0], cache := emptyCache } oid1 req5 10).1 =
      .ok (applyUpdateMap u0 req5.ToMap 10) ∧
    (applyUpdateMap u0 req5.ToMap 10).email = trimSpace "new@ex.co" ∧
    (UserService.UpdateUser { store := [u0], cache := emptyCache } oid1 req5 10).2.cache.data
      (CacheKeyUserByEmail u0.email) = none ∧
    UserService.getUserFromCache
      (UserService.UpdateUser { store := [u0], cache := emptyCache } oid1 req5 10).2.cache
      (CacheKeyUserByEmail u0.email) = none :=
  update_email_invalidates_old_email_key { store := [u0], cache := emptyCache }
    oid1 u0 req5 req5 "new@ex.co" 10 rfl rfl rfl (by decide) rfl rfl rfl rfl rfl

/-- A state whose cache has the same entries and read behaviour but
arbitrary write/delete failure oracles. -/
def setCacheFails (st : SState) (f g : String → Bool) : SState :=
  { st with cache := { st.cache with setFail := f, delFail := g } }

/-- `checkUserExists` only ever writes its own existence key: reads at any
other key see the prior cache. -/
theorem checkUserExists_get_other (store : List User) (env : CacheEnv)
    (field value k2 : String) (h : k2 ≠ CacheKeyUserExists field value) :
    cacheGet (UserService.checkUserExists store env field value).2 k2 =
      cacheGet env k2 := by
  simp only [UserService.checkUserExists]
  cases hc : cacheGet env (CacheKeyUserExists field value)
  · simp only []
    split
    · exact cacheGet_set_ne _ _ _ _ h
    · exact cacheGet_set_ne _ _ _ _ h
    · rfl
  · rfl

/-- The result of `checkUserExists` depends on the cache only through the
read of its own existence key. -/
theorem checkUserExists_result_eq (store : List User) (env env2 : CacheEnv)
    (field value : String)
    (hg : cacheGet env2 (CacheKeyUserExists field value) =
      cacheGet env (CacheKeyUserExists field value)) :
    (UserService.checkUserExists store env2 field value).1 =
      (UserService.checkUserExists store env field value).1 := by
  simp only [UserService.checkUserExists]
  rw [hg]
  cases hc : cacheGet env (CacheKeyUserExists field value)
  · simp only []
    split <;> rfl
  · rfl

/-- `CreateUser` result and resulting store are unchanged under arbitrary
cache write/delete failure oracles: every cache read it performs sees the
same values, and the store pipeline never consults a cache write outcome. -/
theorem createUser_cache_write_failures_irrelevant
    (st : SState) (sha256hex : String → String) (newId salt : String)
    (now : Nat) (req : CreateUserRequest) (f g : String → Bool) :
    (UserService.CreateUser sha256hex newId salt now (setCacheFails st f g) req).1 =
      (UserService.CreateUser sha256hex newId salt now st req).1 ∧
    (UserService.CreateUser sha256hex newId salt now (setCacheFails st f g) req).2.store =
      (UserService.CreateUser sha256hex newId salt now st req).2.store := by
  unfold UserService.CreateUser
  have hst : (setCacheFails st f g).store = st.store := rfl
  rw [hst]
  by_cases hval : (CreateUserRequest.Validate req).1 ≠ []
  · simp [if_pos hval, hst]
  · simp only [if_neg hval]
    rcases hp1 : UserService.checkUserExists st.store st.cache "username"
      (CreateUserRequest.Validate req).2.username with ⟨r1, env1⟩
    rcases hp2 : UserService.checkUserExists st.store (setCacheFails st f g).cache
      "username" (CreateUserRequest.Validate req).2.username with ⟨r2, env2⟩
    have hr12 : r2 = r1 := by
      have hre := checkUserExists_result_eq st.store st.cache
        (setCacheFails st f g).cache "username"
        (CreateUserRequest.Validate req).2.username rfl
      rw [hp1, hp2] at hre
      simpa using hre
    subst hr12
    have hagree : cacheGet env2 (CacheKeyUserExists "email"
        (CreateUserRequest.Validate req).2.email) =
        cacheGet env1 (CacheKeyUserExists "email"
          (CreateUserRequest.Validate req).2.email) := by
      have h1 := checkUserExists_get_other st.store st.cache "username"
        (CreateUserRequest.Validate req).2.username
        (CacheKeyUserExists "email" (CreateUserRequest.Validate req).2.email)
        (Ne.symm (exKeyU_ne_exKeyE _ _))
      have h2 := checkUserExists_get_other st.store (setCacheFails st f g).cache
        "username" (CreateUserRequest.Validate req).2.username
        (CacheKeyUserExists "email" (CreateUserRequest.Validate req).2.email)
        (Ne.symm (exKeyU_ne_exKeyE _ _))
      rw [hp1] at h1
      rw [hp2] at h2
      simp only [] at h1 h2
      rw [h1, h2]
      rfl
    cases r2 with
    | error e => exact ⟨rfl, rfl⟩
    | ok b =>
      cases b with
      | true => exact ⟨rfl, rfl⟩
      | false =>
        simp only []
        rcases hq1 : UserService.checkUserExists st.store env1 "email"
          (CreateUserRequest.Validate req).2.email with ⟨s1, env3⟩
        rcases hq2 : UserService.checkUserExists st.store env2 "email"
          (CreateUserRequest.Validate req).2.email with ⟨s2, env4⟩
        have hs12 : s2 = s1 := by
          have hre := checkUserExists_result_eq st.store env1 env2 "email"
            (CreateUserRequest.Validate req).2.email hagree
          rw [hq1, hq2] at hre
          simpa using hre
        subst hs12
        cases s2 with
        | error e => exact ⟨rfl, rfl⟩
        | ok b2 =>
          cases b2 with
          | true => exact ⟨rfl, rfl⟩
          | false =>
            simp only []
            cases hn : NewUser sha256hex newId salt now
                (CreateUserRequest.Validate req).2.username
                (CreateUserRequest.Validate req).2.email
                (CreateUserRequest.Validate req).2.password with
            | error e => exact ⟨rfl, rfl⟩
            | ok user0 =>
              simp only []
              cases hcr : UserRepository.Create st.store
                  { user0 with
                    firstName := (CreateUserRequest.Validate req).2.firstName,
                    lastName := (CreateUserRequest.Validate req).2.lastName } with
              | error e => exact ⟨rfl, rfl⟩
              | ok store2 => exact ⟨rfl, rfl⟩

/-- C9: cache failures never fail a service operation, while store failures
always propagate. On a cache miss or read failure the cache-aside read
returns exactly the repository result (ok or error) and never mutates the
store; and both the read and `CreateUser` return the same result and the
same store under arbitrary cache write/delete failure oracles, so a cache
write or delete failure can never change an operation's outcome. -/
theorem cache_failures_never_fail_operations
    (st : SState) (id : String) (sha256hex : String → String)
    (newId salt : String) (now : Nat) (req : CreateUserRequest)
    (f g : String → Bool)
    (hmiss : UserService.getUserFromCache st.cache (CacheKeyUser id) = none) :
    (UserService.GetUserByID st id).1 = UserRepository.GetByID st.store id ∧
    (UserService.GetUserByID st id).2.store = st.store ∧
    (UserService.GetUserByID (setCacheFails st f g) id).1 =
      (UserService.GetUserByID st id).1 ∧
    (UserService.CreateUser sha256hex newId salt now (setCacheFails st f g) req).1 =
      (UserService.CreateUser sha256hex newId salt now st req).1 ∧
    (UserService.CreateUser sha256hex newId salt now (setCacheFails st f g) req).2.store =
      (UserService.CreateUser sha256hex newId salt now st req).2.store := by
  have hmiss2 : UserService.getUserFromCache (setCacheFails st f g).cache
      (CacheKeyUser id) = none := hmiss
  refine ⟨?_, ?_, ?_,
    (createUser_cache_write_failures_irrelevant st sha256hex newId salt now req f g).1,
    (createUser_cache_write_failures_irrelevant st sha256hex newId salt now req f g).2⟩
  · unfold UserService.GetUserByID
    rw [hmiss]
    cases h2 : UserRepository.GetByID st.store id <;> simp
  · unfold UserService.GetUserByID
    rw [hmiss]
    cases h2 : UserRepository.GetByID st.store id <;> simp
  · unfold UserService.GetUserByID
    rw [hmiss, hmiss2]
    have hst : (setCacheFails st f g).store = st.store := rfl
    rw [hst]
    cases h2 : UserRepository.GetByID st.store id <;> simp

/-- C9 witness: a concrete run in which every cache write and delete fails,
compared against the healthy-cache run. -/
theorem cache_failures_never_fail_operations_witness :
    (UserService.GetUserByID { store := [u0], cache := emptyCache } oid1).1 =
      UserRepository.GetByID [u0] oid1 ∧
    (UserService.GetUserByID { store := [u0], cache := emptyCache } oid1).2.store = [u0] ∧
    (UserService.GetUserByID
        (setCacheFails { store := [u0], cache := emptyCache }
          (fun _ => true) (fun _ => true)) oid1).1 =
      (UserService.GetUserByID { store := [u0], cache := emptyCache } oid1).1 ∧
    (UserService.CreateUser (fun s => s) oid2 "ss" 3
        (setCacheFails { store := [u0], cache := emptyCache }
          (fun _ => true) (fun _ => true)) req2).1 =
      (UserService.CreateUser (fun s => s) oid2 "ss" 3
        { store := [u0], cache := emptyCache } req2).1 ∧
    (UserService.CreateUser (fun s => s) oid2 "ss" 3
        (setCacheFails { store := [u0], cache := emptyCache }
          (fun _ => true) (fun _ => true)) req2).2.store =
      (UserService.CreateUser (fun s => s) oid2 "ss" 3
        { store := [u0], cache := emptyCache } req2).2.store :=
  cache_failures_never_fail_operations { store := [u0], cache := emptyCache } oid1
    (fun s => s) oid2 "ss" 3 req2 (fun _ => true) (fun _ => true) rfl

end GoTemplate
